import Mathlib

/-!
Shallow embedding of the recipe-sharing service's authentication and
ownership-scoped mutation logic (app/api/endpoints/recipe.py,
app/api/endpoints/user.py, app/api/dependencies.py, app/database.py),
together with theorems settling the spec's claims about it.

The MongoDB collections are modelled as Lean lists of documents; the store
primitives `find_one`, `update_one`, `delete_one`, `delete_many`,
`update_many` are modelled with their single-document semantics: each
`*_one` operation affects the first matching document, `update_one`'s
`modified_count` counts documents actually changed by the `$set`/`$push`
(matching MongoDB: a `$set` writing identical values reports
`modified_count == 0`), and the unique index on `users.username` makes a
duplicate insert fail atomically with `DuplicateKeyError`.
-/

namespace RecipeApp

/-- Embedded comment document (app/api/models/recipe.py, `Comment`). -/
structure Comment where
  id : String
  content : String
  author : String
deriving DecidableEq

/-- A recipe document as stored in the `recipes` collection: the fields of
the pydantic `Recipe` model plus the Mongo `_id` and the embedded
`comments` array (absent on freshly inserted recipes, which all the
operations used treat identically to the empty array, so it is modelled
as a list defaulting to `[]`). -/
structure RecipeDoc where
  id : Nat
  title : String
  author : String
  ingredients : List String
  instructions : String
  categories : List String
  comments : List Comment
deriving DecidableEq

/-- The request body of `PUT /recipes/{id}` and `POST /recipes`
(app/api/models/recipe.py, pydantic `Recipe`): no id, no comments. -/
structure RecipePayload where
  title : String
  author : String
  ingredients : List String
  instructions : String
  categories : List String
deriving DecidableEq

/-- A user record in the `users` collection: `_id`, `username`, hashed
`password` (app/api/models/user.py, `User`, plus the Mongo `_id`). -/
structure UserRec where
  id : Nat
  username : String
  password : String
deriving DecidableEq

/-- An `HTTPException`: status code and detail message. -/
structure HErr where
  status : Nat
  detail : String
deriving DecidableEq

/-- `collection.delete_one(filter)`: removes the first document matching
the filter; returns the new collection and `deleted_count`. -/
def deleteOne (p : α → Bool) : List α → List α × Nat
  | [] => ([], 0)
  | d :: rest =>
    if p d then (rest, 1)
    else
      let r := deleteOne p rest
      (d :: r.1, r.2)

/-- `collection.update_one(filter, update)`: applies the update to the
first document matching the filter; `modified_count` is 1 only when the
update actually changed that document (MongoDB semantics). -/
def updateOne [DecidableEq α] (p : α → Bool) (f : α → α) : List α → List α × Nat
  | [] => ([], 0)
  | d :: rest =>
    if p d then
      if f d = d then (d :: rest, 0) else (f d :: rest, 1)
    else
      let r := updateOne p f rest
      (d :: r.1, r.2)

/-- `collection.delete_many(filter)`: removes every matching document
(the handler ignores the returned count). -/
def deleteMany (p : α → Bool) (db : List α) : List α :=
  db.filter (fun d => !(p d))

/-- `collection.update_many(filter, update)`: applies the update to every
matching document (the handler ignores the returned count). -/
def updateMany (p : α → Bool) (f : α → α) (db : List α) : List α :=
  db.map (fun d => if p d then f d else d)

/-- The effect of `{'$set': recipe.model_dump()}` in `edit_recipe`: every
payload field, including `author`, is written onto the stored document;
`_id` and `comments` are untouched. -/
def applySet (payload : RecipePayload) (r : RecipeDoc) : RecipeDoc :=
  { r with
    title := payload.title
    author := payload.author
    ingredients := payload.ingredients
    instructions := payload.instructions
    categories := payload.categories }

/-- The document inserted by `add_recipe`: `recipe.model_dump()` has no
`comments` field, plus the generated `_id`. -/
def payloadToDoc (newId : Nat) (p : RecipePayload) : RecipeDoc :=
  { id := newId
    title := p.title
    author := p.author
    ingredients := p.ingredients
    instructions := p.instructions
    categories := p.categories
    comments := [] }

/-- `PUT /recipes/{recipe_id}` (app/api/endpoints/recipe.py,
`edit_recipe`), after the token has been resolved to `author`:
`update_one({'_id': rid, 'author': author}, {'$set': payload}, upsert=False)`;
404 `Recipe not found` when `modified_count == 0`, otherwise the
re-fetched document. Returns the response and the new collection. -/
def edit_recipe (author : String) (rid : Nat) (payload : RecipePayload)
    (db : List RecipeDoc) : Except HErr (Option RecipeDoc) × List RecipeDoc :=
  let r := updateOne (fun d => d.id == rid && d.author == author) (applySet payload) db
  if r.2 == 0 then
    (Except.error ⟨404, "Recipe not found"⟩, r.1)
  else
    (Except.ok (r.1.find? (fun d => d.id == rid)), r.1)

/-- `DELETE /recipes/{recipe_id}` (app/api/endpoints/recipe.py,
`delete_recipe`), after token resolution:
`delete_one({'_id': rid, 'author': author})`; 404 when
`deleted_count == 0`. -/
def delete_recipe (author : String) (rid : Nat) (db : List RecipeDoc) :
    Except HErr String × List RecipeDoc :=
  let r := deleteOne (fun d => d.id == rid && d.author == author) db
  if r.2 == 0 then
    (Except.error ⟨404, "Recipe not found"⟩, r.1)
  else
    (Except.ok "Recipe deleted successfully", r.1)

/-- `POST /recipes` (app/api/endpoints/recipe.py, `add_recipe`), after
token resolution: overwrites `recipe.author` with the resolved username,
inserts the dump, and returns the document found under the inserted id. -/
def add_recipe (username : String) (payload : RecipePayload) (newId : Nat)
    (db : List RecipeDoc) : Except HErr (Option RecipeDoc) × List RecipeDoc :=
  let stamped := { payload with author := username }
  let db' := db ++ [payloadToDoc newId stamped]
  (Except.ok (db'.find? (fun d => d.id == newId)), db')

/-- `POST /recipes/comments/{recipe_id}` (app/api/endpoints/recipe.py,
`add_recipe_comment`), after token resolution: builds a `Comment` with a
fresh id, the request's `comment` string as content and the resolved
username as author, then
`update_one({'_id': rid}, {'$push': {'comments': comment}})`; 404 when
`modified_count == 0`. -/
def add_recipe_comment (username : String) (content : String) (rid : Nat)
    (newCommentId : String) (db : List RecipeDoc) :
    Except HErr (Option RecipeDoc) × List RecipeDoc :=
  let newComment : Comment := ⟨newCommentId, content, username⟩
  let r := updateOne (fun d => d.id == rid)
    (fun d => { d with comments := d.comments ++ [newComment] }) db
  if r.2 == 0 then
    (Except.error ⟨404, "Recipe not found"⟩, r.1)
  else
    (Except.ok (r.1.find? (fun d => d.id == rid)), r.1)

/-- Outcome of `GET /recipes/comments/{recipe_id}`: either a normal
return of the comment list, or the uncaught Python `AttributeError`
raised by `next(cursor, None).get(...)` when the cursor is empty. The
handler has no not-found branch at all. -/
inductive GetCommentsResult where
  | ok (comments : List Comment)
  | noneTypeAttributeError
deriving DecidableEq

/-- `GET /recipes/comments/{recipe_id}` (app/api/endpoints/recipe.py,
`get_all_recipe_comments`): finds the recipe and takes
`next(comments_cursor, None).get('comments', [])` — when no document
matches, `next` yields `None` and the `.get` attribute access raises
`AttributeError` instead of returning. -/
def get_all_recipe_comments (rid : Nat) (db : List RecipeDoc) : GetCommentsResult :=
  match db.find? (fun d => d.id == rid) with
  | some r => .ok r.comments
  | none => .noneTypeAttributeError

/-- `DELETE /recipes/comments/{recipe_id}/{comment_id}`
(app/api/endpoints/recipe.py, `delete_recipe_comment`), after token
resolution: `delete_one({'_id': rid, 'author': username,
'comments': {'$elemMatch': {'id': cid}}})` — note `delete_one` on the
recipes collection removes the whole recipe document; 404
`Comment not found` when `deleted_count == 0`. -/
def delete_recipe_comment (username : String) (rid : Nat) (cid : String)
    (db : List RecipeDoc) : Except HErr String × List RecipeDoc :=
  let r := deleteOne
    (fun d => d.id == rid && d.author == username
      && d.comments.any (fun c => c.id == cid)) db
  if r.2 == 0 then
    (Except.error ⟨404, "Comment not found"⟩, r.1)
  else
    (Except.ok "Comment deleted successfully", r.1)

/-- Model of `passlib` `CryptContext(schemes=['bcrypt']).hash`, an
external library the code calls: an injective one-way digest (the salt,
which only affects which of several hashes of the same password is
produced, is elided; `verify` below is its round-trip check). -/
def bcryptHash (p : String) : String :=
  "bcrypt-2b" ++ p

/-- Model of `passlib` `CryptContext.verify(plaintext, hash)`: true
exactly when the hash was produced from the plaintext. -/
def bcryptVerify (p h : String) : Bool :=
  bcryptHash p == h

/-- The claims dictionary of a JWT as used here: the `username` claim
(absent for tokens minted with other payloads) and the `exp` claim in
seconds. -/
structure JwtPayload where
  username : Option String
  exp : Nat
deriving DecidableEq

/-- A presented bearer token: either a well-formed JWT signed with some
key, or a malformed / tampered string whose signature does not
validate. -/
inductive Jwt where
  | signed (payload : JwtPayload) (key : String)
  | malformed (raw : String)
deriving DecidableEq

/-- Model of `jose.jwt.encode(claims, secret_key, algorithm)`. -/
def jwtEncode (payload : JwtPayload) (key : String) : Jwt :=
  .signed payload key

/-- Model of `jose.jwt.decode(token, secret_key, algorithms)` at time
`now`: raises `JWTError` when the signature does not validate against
`key` or the token is malformed, and `ExpiredSignatureError` (a
`JWTError`) when the `exp` claim is in the past. -/
def jwtDecode (tok : Jwt) (key : String) (now : Nat) : Except String JwtPayload :=
  match tok with
  | .malformed _ => .error "JWTError"
  | .signed p k =>
    if k ≠ key then .error "JWTError"
    else if p.exp < now then .error "ExpiredSignatureError"
    else .ok p

/-- One week in seconds: `timedelta(weeks=1)`. -/
def oneWeek : Nat := 7 * 24 * 60 * 60

/-- `create_jwt_token` (app/api/dependencies.py) applied to the
`{'username': username}` dict the callers pass, at issuance time `now`:
adds `exp = now + timedelta(weeks=1)` and signs with the server key. -/
def create_jwt_token (username : String) (key : String) (now : Nat) : Jwt :=
  jwtEncode { username := some username, exp := now + oneWeek } key

/-- The `credentials_exception` of `get_current_user`. -/
def credentialsException : HErr :=
  ⟨401, "Could not validate credentials"⟩

/-- The response of a user lookup projected as
`{'_id': 0, 'password': 0}` and of `add_user`'s created-user response:
just the username. -/
structure UserResp where
  username : String
deriving DecidableEq

/-- `get_current_user` (app/api/dependencies.py): decode the token with
the server key; 401 on `JWTError`, on a missing `username` claim, and on
no user record with that username; otherwise the stored user without
`_id` and `password`. -/
def get_current_user (tok : Jwt) (key : String) (now : Nat)
    (users : List UserRec) : Except HErr UserResp :=
  match jwtDecode tok key now with
  | .error _ => .error credentialsException
  | .ok payload =>
    match payload.username with
    | none => .error credentialsException
    | some uname =>
      match users.find? (fun u => u.username == uname) with
      | none => .error credentialsException
      | some u => .ok ⟨u.username⟩

/-- `authenticate_user` (app/api/dependencies.py): look the username up;
if found and the plaintext verifies against the stored hash, issue a
token with `token_type='bearer'`; otherwise — found-but-wrong-password
and not-found alike — 401 `Invalid credentials`. -/
def authenticate_user (username password : String) (key : String) (now : Nat)
    (users : List UserRec) : Except HErr (Jwt × String) :=
  match users.find? (fun u => u.username == username) with
  | some u =>
    if bcryptVerify password u.password then
      .ok (create_jwt_token u.username key now, "bearer")
    else
      .error ⟨401, "Invalid credentials"⟩
  | none => .error ⟨401, "Invalid credentials"⟩

/-- Outcome of `POST /users/login`: a token response, an
`HTTPException`, or the uncaught Python `AttributeError`. -/
inductive LoginResult where
  | ok (access_token : Jwt) (token_type : String)
  | httpError (e : HErr)
  | pyAttributeError
deriving DecidableEq

/-- `POST /users/login` (app/api/endpoints/user.py, `login`). The source
rebinds `user` to the store's record dict
(`user = ...find_one({'username': user.username})`) and then evaluates
`user and password_context.verify(user.password, user['password'])`:
when no record exists the conjunction short-circuits to the 401 raise,
but when a record exists the attribute access `user.password` on the
dict raises `AttributeError` before `verify` runs, so the request
password (second argument here) is never consulted. -/
def login (username : String) (password : String) (key : String) (now : Nat)
    (users : List UserRec) : LoginResult :=
  match users.find? (fun u => u.username == username) with
  | none => .httpError ⟨401, "Invalid credentials"⟩
  | some _ => .pyAttributeError

/-- `POST /users/` (app/api/endpoints/user.py, `add_user`): hash the
password, `insert_one` into `users` — which carries a unique index on
`username` (app/database.py), so a duplicate fails atomically with
`DuplicateKeyError`, caught and re-raised as 400
`Username already in use.`; on success the response is the stored record
without `_id` and `password`. Returns the response and the new
collection. -/
def add_user (username password : String) (newId : Nat)
    (users : List UserRec) : Except HErr UserResp × List UserRec :=
  let hashed := bcryptHash password
  if users.any (fun u => u.username == username) then
    (Except.error ⟨400, "Username already in use."⟩, users)
  else
    let newUser : UserRec := ⟨newId, username, hashed⟩
    (Except.ok ⟨username⟩, users ++ [newUser])

/-- `DELETE /users/delete/{user_id}` (app/api/endpoints/user.py,
`delete_user`), after token resolution:
`delete_one({'_id': uid, 'username': username})` on `users`; when a
record was deleted, `delete_many({'author': username})` on `recipes`
and then `update_many({'comments.author': username},
{'$pull': {'comments': {'author': username}}})`; otherwise 404
`User not found`. Returns the response and both new collections. -/
def delete_user (username : String) (uid : Nat) (users : List UserRec)
    (recipes : List RecipeDoc) :
    Except HErr String × List UserRec × List RecipeDoc :=
  let r := deleteOne (fun u => u.id == uid && u.username == username) users
  if r.2 > 0 then
    let recipes1 := deleteMany (fun d => d.author == username) recipes
    let recipes2 := updateMany
      (fun d => d.comments.any (fun c => c.author == username))
      (fun d => { d with comments := d.comments.filter (fun c => !(c.author == username)) })
      recipes1
    (Except.ok "User deleted successfully", r.1, recipes2)
  else
    (Except.error ⟨404, "User not found"⟩, r.1, recipes)

/-! Helper lemmas about the store primitives. -/

theorem deleteOne_of_none {α : Type} (p : α → Bool) (db : List α)
    (h : ∀ d ∈ db, p d = false) : deleteOne p db = (db, 0) := by
  induction db with
  | nil => rfl
  | cons d rest ih =>
    have hd : p d = false := h d (List.mem_cons_self d rest)
    have hr := ih (fun x hx => h x (List.mem_cons_of_mem d hx))
    simp [deleteOne, hd, hr]

theorem deleteOne_count {α : Type} (p : α → Bool) (db : List α) :
    (deleteOne p db).2 = if db.any p then 1 else 0 := by
  induction db with
  | nil => rfl
  | cons d rest ih =>
    cases hd : p d with
    | true => simp [deleteOne, hd]
    | false => simp [deleteOne, hd, ih]

theorem updateOne_of_none {α : Type} [DecidableEq α] (p : α → Bool) (f : α → α)
    (db : List α) (h : ∀ d ∈ db, p d = false) : updateOne p f db = (db, 0) := by
  induction db with
  | nil => rfl
  | cons d rest ih =>
    have hd : p d = false := h d (List.mem_cons_self d rest)
    have hr := ih (fun x hx => h x (List.mem_cons_of_mem d hx))
    simp [updateOne, hd, hr]

theorem updateOne_count_one {α : Type} [DecidableEq α] (p : α → Bool) (f : α → α)
    (db : List α) (R : α) (hmem : R ∈ db) (hpR : p R = true)
    (huniq : ∀ x ∈ db, p x = true → x = R) (hch : f R ≠ R) :
    (updateOne p f db).2 = 1 := by
  induction db with
  | nil => cases hmem
  | cons d rest ih =>
    cases hd : p d with
    | true =>
      have hdR : d = R := huniq d (List.mem_cons_self d rest) hd
      subst hdR
      simp [updateOne, hd, hch]
    | false =>
      have hne : R ≠ d := by
        intro h; rw [← h] at hd; rw [hd] at hpR; cases hpR
      have hmem' : R ∈ rest := by
        rcases List.mem_cons.mp hmem with h | h
        · exact absurd h hne
        · exact h
      have := ih hmem' (fun x hx hpx => huniq x (List.mem_cons_of_mem d hx) hpx)
      simp [updateOne, hd, this]

theorem mem_updateOne {α : Type} [DecidableEq α] (p : α → Bool) (f : α → α)
    (db : List α) : ∀ x ∈ (updateOne p f db).1, ∃ d, d ∈ db ∧ (x = d ∨ x = f d) := by
  induction db with
  | nil => intro x hx; simp [updateOne] at hx
  | cons d rest ih =>
    intro x hx
    cases hd : p d with
    | true =>
      rw [updateOne] at hx
      simp only [hd, if_true] at hx
      by_cases hfd : f d = d
      · simp only [hfd, if_pos rfl] at hx
        rcases List.mem_cons.mp hx with h | h
        · exact ⟨d, List.mem_cons_self d rest, Or.inl h⟩
        · exact ⟨x, List.mem_cons_of_mem d h, Or.inl rfl⟩
      · simp only [if_neg hfd] at hx
        rcases List.mem_cons.mp hx with h | h
        · exact ⟨d, List.mem_cons_self d rest, Or.inr h⟩
        · exact ⟨x, List.mem_cons_of_mem d h, Or.inl rfl⟩
    | false =>
      rw [updateOne] at hx
      simp only [hd, Bool.false_eq_true, if_false] at hx
      rcases List.mem_cons.mp hx with h | h
      · exact ⟨d, List.mem_cons_self d rest, Or.inl h⟩
      · obtain ⟨e, he, hor⟩ := ih x h
        exact ⟨e, List.mem_cons_of_mem d he, hor⟩

/-- Under a duplicate-free `_id` column, two documents with the same id
are the same document. -/
theorem unique_id_elem (db : List RecipeDoc) (hnd : (db.map RecipeDoc.id).Nodup)
    {R x : RecipeDoc} (hR : R ∈ db) (hx : x ∈ db) (h : x.id = R.id) : x = R :=
  List.inj_on_of_nodup_map hnd hx hR h

/-- A filter that pins the `_id` and rejects the unique document with
that id matches nothing in the collection. -/
theorem pred_false_of_unique (db : List RecipeDoc)
    (hnd : (db.map RecipeDoc.id).Nodup) (R : RecipeDoc) (hR : R ∈ db)
    {p : RecipeDoc → Bool} (hp : ∀ d, p d = true → d.id = R.id)
    (hpR : p R = false) : ∀ d ∈ db, p d = false := by
  intro d hd
  cases h : p d with
  | false => rfl
  | true =>
    have hdR : d = R := unique_id_elem db hnd hR hd (hp d h)
    rw [hdR] at h
    rw [h] at hpR
    cases hpR

/-- A filter that pins the `_id` matches somewhere in the collection
exactly as it matches the unique document with that id. -/
theorem any_eq_pred_of_unique (db : List RecipeDoc)
    (hnd : (db.map RecipeDoc.id).Nodup) (R : RecipeDoc) (hR : R ∈ db)
    {p : RecipeDoc → Bool} (hp : ∀ d, p d = true → d.id = R.id) :
    db.any p = p R := by
  cases hpR : p R with
  | true => exact List.any_eq_true.mpr ⟨R, hR, hpR⟩
  | false =>
    refine List.any_eq_false.mpr ?_
    intro x hx
    rw [pred_false_of_unique db hnd R hR hp hpR x hx]
    exact Bool.false_ne_true

/-! Claim C1. -/

/-- Claim C1, counterexample: the claim asserts that the recipe's own
author's PUT always succeeds, but `edit_recipe` tests
`modified_count == 0`, so a PUT by the author whose `$set` writes the
values already stored matches the document yet modifies nothing and is
answered with 404 `Recipe not found`. -/
theorem edit_recipe_author_noop_put_404 :
    (edit_recipe "alice" 1
        ⟨"Soup", "alice", ["water", "salt"], "boil", ["easy"]⟩
        [⟨1, "Soup", "alice", ["water", "salt"], "boil", ["easy"], []⟩]).1
      = Except.error ⟨404, "Recipe not found"⟩ := by rfl

/-- Claim C1 (amended): for a stored recipe `R` authored by `A` and a
resolved identity `C ≠ A`, a PUT or DELETE by `C` fails with 404
`Recipe not found` and leaves the collection unchanged; a DELETE by `A`
succeeds, and a PUT by `A` succeeds provided the submitted fields differ
from the stored ones. -/
theorem recipe_mutation_owner_scoped (db : List RecipeDoc) (R : RecipeDoc)
    (rid : Nat) (A C : String) (payload : RecipePayload)
    (hnd : (db.map RecipeDoc.id).Nodup) (hmem : R ∈ db) (hid : R.id = rid)
    (hA : R.author = A) (hC : C ≠ A) :
    edit_recipe C rid payload db = (Except.error ⟨404, "Recipe not found"⟩, db)
    ∧ delete_recipe C rid db = (Except.error ⟨404, "Recipe not found"⟩, db)
    ∧ (∃ v, (delete_recipe A rid db).1 = Except.ok v)
    ∧ (applySet payload R ≠ R →
        ∃ v, (edit_recipe A rid payload db).1 = Except.ok v) := by
  subst hid
  subst hA
  have hp : ∀ d : RecipeDoc, (d.id == R.id && d.author == C) = true → d.id = R.id := by
    intro d h
    rw [Bool.and_eq_true, beq_iff_eq, beq_iff_eq] at h
    exact h.1
  have hpR : (R.id == R.id && R.author == C) = false := by
    simp only [beq_self_eq_true, Bool.true_and]
    rw [beq_eq_false_iff_ne]
    exact fun h => hC h.symm
  have hall : ∀ d ∈ db, (d.id == R.id && d.author == C) = false :=
    pred_false_of_unique db hnd R hmem hp hpR
  have hpA : ∀ d : RecipeDoc, (d.id == R.id && d.author == R.author) = true → d.id = R.id := by
    intro d h
    rw [Bool.and_eq_true, beq_iff_eq, beq_iff_eq] at h
    exact h.1
  have hpAR : (R.id == R.id && R.author == R.author) = true := by
    simp
  have huniq : ∀ x ∈ db, (x.id == R.id && x.author == R.author) = true → x = R := by
    intro x hx h
    exact unique_id_elem db hnd hmem hx (hpA x h)
  refine ⟨?_, ?_, ?_, ?_⟩
  · have h0 := updateOne_of_none (fun d : RecipeDoc => d.id == R.id && d.author == C)
      (applySet payload) db hall
    simp [edit_recipe, h0]
  · have h0 := deleteOne_of_none (fun d : RecipeDoc => d.id == R.id && d.author == C)
      db hall
    simp [delete_recipe, h0]
  · have hany : db.any (fun d => d.id == R.id && d.author == R.author) = true := by
      rw [any_eq_pred_of_unique db hnd R hmem hpA]
      exact hpAR
    have hc : (deleteOne (fun d : RecipeDoc => d.id == R.id && d.author == R.author) db).2 = 1 := by
      rw [deleteOne_count, hany]
      rfl
    exact ⟨"Recipe deleted successfully", by simp [delete_recipe, hc]⟩
  · intro hch
    have hc := updateOne_count_one
      (fun d : RecipeDoc => d.id == R.id && d.author == R.author)
      (applySet payload) db R hmem hpAR huniq hch
    refine ⟨(updateOne (fun d : RecipeDoc => d.id == R.id && d.author == R.author)
      (applySet payload) db).1.find? (fun d => d.id == R.id), ?_⟩
    simp [edit_recipe, hc]

/-- Claim C1, witness: alice's recipe, bob resolved; bob's PUT/DELETE
get 404 and change nothing, alice's DELETE succeeds, and alice's PUT
with changed fields succeeds. -/
theorem recipe_mutation_owner_scoped_witness :
    edit_recipe "bob" 1 ⟨"Stew", "bob", ["meat"], "stew it", []⟩
        [⟨1, "Soup", "alice", ["water"], "boil", ["easy"], []⟩]
      = (Except.error ⟨404, "Recipe not found"⟩,
          [⟨1, "Soup", "alice", ["water"], "boil", ["easy"], []⟩])
    ∧ delete_recipe "bob" 1 [⟨1, "Soup", "alice", ["water"], "boil", ["easy"], []⟩]
      = (Except.error ⟨404, "Recipe not found"⟩,
          [⟨1, "Soup", "alice", ["water"], "boil", ["easy"], []⟩])
    ∧ (∃ v, (delete_recipe "alice" 1
        [⟨1, "Soup", "alice", ["water"], "boil", ["easy"], []⟩]).1 = Except.ok v)
    ∧ (∃ v, (edit_recipe "alice" 1 ⟨"Stew", "bob", ["meat"], "stew it", []⟩
        [⟨1, "Soup", "alice", ["water"], "boil", ["easy"], []⟩]).1 = Except.ok v) := by
  have h := recipe_mutation_owner_scoped
    [⟨1, "Soup", "alice", ["water"], "boil", ["easy"], []⟩]
    ⟨1, "Soup", "alice", ["water"], "boil", ["easy"], []⟩
    1 "alice" "bob" ⟨"Stew", "bob", ["meat"], "stew it", []⟩
    (by decide) (by decide) rfl rfl (by decide)
  exact ⟨h.1, h.2.1, h.2.2.1, h.2.2.2 (by decide)⟩

/-! Claim C2. -/

/-- Claim C2 (confirmed): deleting a comment succeeds exactly when the
acting identity is the recipe's author and the comment id occurs in the
recipe's comment sequence; in particular any actor other than the
recipe's author — the comment's own author included — receives 404
`Comment not found` and the store is unchanged. -/
theorem comment_delete_requires_recipe_author (db : List RecipeDoc) (R : RecipeDoc)
    (rid : Nat) (cid : String) (actor : String)
    (hnd : (db.map RecipeDoc.id).Nodup) (hmem : R ∈ db) (hid : R.id = rid) :
    ((delete_recipe_comment actor rid cid db).1
        = Except.ok "Comment deleted successfully"
      ↔ (actor = R.author ∧ ∃ c ∈ R.comments, c.id = cid))
    ∧ (actor ≠ R.author →
        delete_recipe_comment actor rid cid db
          = (Except.error ⟨404, "Comment not found"⟩, db)) := by
  subst hid
  have hp : ∀ d : RecipeDoc,
      (d.id == R.id && d.author == actor
        && d.comments.any (fun c => c.id == cid)) = true → d.id = R.id := by
    intro d h
    simp only [Bool.and_eq_true, beq_iff_eq] at h
    exact h.1.1
  constructor
  · cases hqR : (R.id == R.id && R.author == actor
        && R.comments.any (fun c => c.id == cid)) with
    | true =>
      have hany : db.any (fun d => d.id == R.id && d.author == actor
          && d.comments.any (fun c => c.id == cid)) = true := by
        rw [any_eq_pred_of_unique db hnd R hmem hp]
        exact hqR
      have hc : (deleteOne (fun d : RecipeDoc => d.id == R.id && d.author == actor
          && d.comments.any (fun c => c.id == cid)) db).2 = 1 := by
        rw [deleteOne_count, hany]
        rfl
      simp only [Bool.and_eq_true, beq_self_eq_true, true_and, beq_iff_eq,
        List.any_eq_true] at hqR
      constructor
      · intro _
        exact ⟨hqR.1.symm, hqR.2⟩
      · intro _
        simp [delete_recipe_comment, hc]
    | false =>
      have hall := pred_false_of_unique db hnd R hmem hp hqR
      have h0 := deleteOne_of_none _ db hall
      constructor
      · intro hok
        rw [delete_recipe_comment] at hok
        simp only [h0] at hok
        simp at hok
      · rintro ⟨hauth, c, hc, hcid⟩
        exfalso
        have hqR' : (R.id == R.id && R.author == actor
            && R.comments.any (fun c => c.id == cid)) = true := by
          simp only [Bool.and_eq_true]
          exact ⟨⟨beq_self_eq_true R.id, beq_iff_eq.mpr hauth.symm⟩,
            List.any_eq_true.mpr ⟨c, hc, beq_iff_eq.mpr hcid⟩⟩
        rw [hqR'] at hqR
        cases hqR
  · intro hne
    have hqR : (R.id == R.id && R.author == actor
        && R.comments.any (fun c => c.id == cid)) = false := by
      cases hq : (R.id == R.id && R.author == actor
          && R.comments.any (fun c => c.id == cid)) with
      | false => rfl
      | true =>
        exfalso
        simp only [Bool.and_eq_true, beq_iff_eq] at hq
        exact hne hq.1.2.symm
    have hall := pred_false_of_unique db hnd R hmem hp hqR
    have h0 := deleteOne_of_none _ db hall
    simp [delete_recipe_comment, h0]

/-- Claim C2, witness: bob wrote the comment on alice's recipe, yet
bob's delete-comment request is answered 404 and changes nothing. -/
theorem comment_delete_requires_recipe_author_witness :
    delete_recipe_comment "bob" 1 "c1"
        [⟨1, "Soup", "alice", ["water"], "boil", [], [⟨"c1", "yummy", "bob"⟩]⟩]
      = (Except.error ⟨404, "Comment not found"⟩,
          [⟨1, "Soup", "alice", ["water"], "boil", [], [⟨"c1", "yummy", "bob"⟩]⟩]) :=
  (comment_delete_requires_recipe_author
    [⟨1, "Soup", "alice", ["water"], "boil", [], [⟨"c1", "yummy", "bob"⟩]⟩]
    ⟨1, "Soup", "alice", ["water"], "boil", [], [⟨"c1", "yummy", "bob"⟩]⟩
    1 "c1" "bob" (by decide) (by decide) rfl).2 (by decide)

/-! Claim C3. -/

/-- After a `delete_one` whose filter pins the `_id` removed a document
from a duplicate-free collection, no document with that id remains. -/
theorem deleteOne_unique_id_gone (p : RecipeDoc → Bool) (rid : Nat)
    (hp : ∀ d, p d = true → d.id = rid) :
    ∀ db : List RecipeDoc, (db.map RecipeDoc.id).Nodup →
      (deleteOne p db).2 = 1 →
      (deleteOne p db).1.find? (fun d => d.id == rid) = none := by
  intro db
  induction db with
  | nil =>
    intro _ h1
    simp [deleteOne] at h1
  | cons d rest ih =>
    intro hnd h1
    rw [List.map_cons, List.nodup_cons] at hnd
    cases hd : p d with
    | true =>
      have hid := hp d hd
      simp only [deleteOne, hd, if_true]
      rw [List.find?_eq_none]
      intro x hx
      simp only [beq_iff_eq]
      intro hxe
      have hm : rid ∈ rest.map RecipeDoc.id := by
        rw [← hxe]
        exact List.mem_map_of_mem _ hx
      rw [hid] at hnd
      exact hnd.1 hm
    | false =>
      have h1' : (deleteOne p rest).2 = 1 := by
        simpa [deleteOne, hd] using h1
      have hdne : d.id ≠ rid := by
        intro he
        have hallf : ∀ x ∈ rest, p x = false := by
          intro x hx
          cases hpx : p x with
          | false => rfl
          | true =>
            exfalso
            have hxid := hp x hpx
            have hm : rid ∈ rest.map RecipeDoc.id := by
              rw [← hxid]
              exact List.mem_map_of_mem _ hx
            rw [he] at hnd
            exact hnd.1 hm
        have h0 := deleteOne_of_none p rest hallf
        rw [h0] at h1'
        cases h1'
      simp only [deleteOne, hd, Bool.false_eq_true, if_false]
      rw [List.find?_cons_of_neg]
      · exact ih hnd.2 h1'
      · simp only [beq_iff_eq]
        exact hdne

/-- Claim C3 (confirmed): a successful `delete_recipe_comment` removes
the entire recipe document — the handler issues `delete_one` on the
recipes collection — so a subsequent lookup of the recipe id finds
nothing. -/
theorem delete_comment_removes_whole_recipe (db db' : List RecipeDoc)
    (rid : Nat) (cid author msg : String)
    (hnd : (db.map RecipeDoc.id).Nodup)
    (h : delete_recipe_comment author rid cid db = (Except.ok msg, db')) :
    db'.find? (fun d => d.id == rid) = none := by
  have hp : ∀ d : RecipeDoc,
      (d.id == rid && d.author == author
        && d.comments.any (fun c => c.id == cid)) = true → d.id = rid := by
    intro d hq
    simp only [Bool.and_eq_true, beq_iff_eq] at hq
    exact hq.1.1
  simp only [delete_recipe_comment] at h
  split at h
  · exact absurd (congrArg Prod.fst h) (by simp)
  · rename_i hc
    have hdb' : db' = (deleteOne (fun d : RecipeDoc => d.id == rid && d.author == author
        && d.comments.any (fun c => c.id == cid)) db).1 :=
      (congrArg Prod.snd h).symm
    have hcount : (deleteOne (fun d : RecipeDoc => d.id == rid && d.author == author
        && d.comments.any (fun c => c.id == cid)) db).2 = 1 := by
      cases hany : db.any (fun d => d.id == rid && d.author == author
          && d.comments.any (fun c => c.id == cid)) with
      | true =>
        rw [deleteOne_count, hany]
        rfl
      | false =>
        exfalso
        apply hc
        rw [deleteOne_count, hany]
        rfl
    rw [hdb']
    exact deleteOne_unique_id_gone _ rid hp db hnd hcount

/-- Claim C3, witness: alice deletes comment `c1` on her one-comment
recipe; the whole recipe document is gone from the collection. -/
theorem delete_comment_removes_whole_recipe_witness :
    delete_recipe_comment "alice" 1 "c1"
        [⟨1, "Soup", "alice", ["water"], "boil", [], [⟨"c1", "yummy", "bob"⟩]⟩]
      = (Except.ok "Comment deleted successfully", [])
    ∧ List.find? (fun d => d.id == 1) ([] : List RecipeDoc) = none :=
  ⟨rfl, delete_comment_removes_whole_recipe
    [⟨1, "Soup", "alice", ["water"], "boil", [], [⟨"c1", "yummy", "bob"⟩]⟩]
    [] 1 "c1" "alice" "Comment deleted successfully" (by decide) rfl⟩

/-! Claim C4. -/

/-- Claim C4 (confirmed): a successful `delete_user` for username `A`
leaves no recipe authored by `A` and no embedded comment authored by `A`,
while every recipe by another author persists with exactly its
`A`-authored comments pulled; the returned state reflects both cleanup
steps, so both were performed before success was returned. -/
theorem delete_user_cascade (username msg : String) (uid : Nat)
    (users users' : List UserRec) (recipes recipes' : List RecipeDoc)
    (h : delete_user username uid users recipes = (Except.ok msg, users', recipes')) :
    (∀ r ∈ recipes', r.author ≠ username ∧ ∀ c ∈ r.comments, c.author ≠ username)
    ∧ (∀ r ∈ recipes, r.author ≠ username →
        { r with comments := r.comments.filter (fun c => !(c.author == username)) }
          ∈ recipes') := by
  simp only [delete_user] at h
  split at h
  case isFalse => exact absurd (congrArg (fun x => x.1) h) (by simp)
  case isTrue hpos =>
    have hrec : recipes' = updateMany
        (fun d : RecipeDoc => d.comments.any (fun c => c.author == username))
        (fun d => { d with comments := d.comments.filter (fun c => !(c.author == username)) })
        (deleteMany (fun d : RecipeDoc => d.author == username) recipes) :=
      (congrArg (fun x => x.2.2) h).symm
    subst hrec
    constructor
    · intro r hr
      obtain ⟨s, hs, hgs⟩ := List.mem_map.mp hr
      have hsf := List.mem_filter.mp hs
      have hsa : s.author ≠ username := by
        have := hsf.2
        simp only [Bool.not_eq_true', beq_eq_false_iff_ne, ne_eq] at this
        exact this
      cases hp2 : s.comments.any (fun c => c.author == username) with
      | true =>
        simp only [hp2, if_true] at hgs
        subst hgs
        refine ⟨hsa, ?_⟩
        intro c hc
        have := (List.mem_filter.mp hc).2
        simp only [Bool.not_eq_true', beq_eq_false_iff_ne, ne_eq] at this
        exact this
      | false =>
        simp only [hp2, Bool.false_eq_true, if_false] at hgs
        subst hgs
        refine ⟨hsa, ?_⟩
        intro c hc
        have := List.any_eq_false.mp hp2 c hc
        simp only [Bool.not_eq_true, beq_eq_false_iff_ne, ne_eq] at this
        exact this
    · intro r hr hne
      have hrf : r ∈ deleteMany (fun d : RecipeDoc => d.author == username) recipes := by
        refine List.mem_filter.mpr ⟨hr, ?_⟩
        simp only [Bool.not_eq_true', beq_eq_false_iff_ne, ne_eq]
        exact hne
      have hmap := List.mem_map_of_mem
        (fun d : RecipeDoc => if d.comments.any (fun c => c.author == username)
          then { d with comments := d.comments.filter (fun c => !(c.author == username)) }
          else d) hrf
      cases hp2 : r.comments.any (fun c => c.author == username) with
      | true =>
        simpa only [updateMany, hp2, if_true] using hmap
      | false =>
        have hfe : r.comments.filter (fun c => !(c.author == username)) = r.comments := by
          refine List.filter_eq_self.mpr ?_
          intro c hc
          simp only [Bool.not_eq_true', beq_eq_false_iff_ne, ne_eq]
          have := List.any_eq_false.mp hp2 c hc
          simp only [Bool.not_eq_true, beq_eq_false_iff_ne, ne_eq] at this
          exact this
        rw [hfe]
        simpa only [updateMany, hp2, Bool.false_eq_true, if_false] using hmap

/-- Claim C4, witness: deleting alice removes her recipe and pulls her
comment from bob's recipe, which itself persists with bob's comment. -/
theorem delete_user_cascade_witness :
    (∀ r ∈ [(⟨2, "Stew", "bob", ["meat"], "stew it", [],
        [⟨"c2", "hi", "bob"⟩]⟩ : RecipeDoc)],
      r.author ≠ "alice" ∧ ∀ c ∈ r.comments, c.author ≠ "alice")
    ∧ ((⟨2, "Stew", "bob", ["meat"], "stew it", [],
        [⟨"c2", "hi", "bob"⟩]⟩ : RecipeDoc)
      ∈ [(⟨2, "Stew", "bob", ["meat"], "stew it", [],
        [⟨"c2", "hi", "bob"⟩]⟩ : RecipeDoc)]) := by
  have h := delete_user_cascade "alice" "User deleted successfully" 1
    [⟨1, "alice", "hash1"⟩] []
    [⟨1, "Soup", "alice", ["water"], "boil", [], []⟩,
      ⟨2, "Stew", "bob", ["meat"], "stew it", [],
        [⟨"c1", "yo", "alice"⟩, ⟨"c2", "hi", "bob"⟩]⟩]
    [⟨2, "Stew", "bob", ["meat"], "stew it", [], [⟨"c2", "hi", "bob"⟩]⟩]
    rfl
  exact ⟨h.1, h.2 ⟨2, "Stew", "bob", ["meat"], "stew it", [],
    [⟨"c1", "yo", "alice"⟩, ⟨"c2", "hi", "bob"⟩]⟩ (by decide) (by decide)⟩

/-! Claim C5. -/

/-- Claim C5 (code bug): the `login` route rebinds `user` to the store
record and then evaluates `user.password` — an attribute access on a
dict — so any login against an existing username raises
`AttributeError` instead of the 401 `Invalid credentials` that an
unknown username receives; the two failure shapes differ. The repo's
own `authenticate_user` helper implements the claimed behaviour: wrong
password and unknown username produce the identical 401 error. -/
theorem login_crashes_on_existing_username :
    login "alice" "wrong" "k" 0 [⟨1, "alice", bcryptHash "pw1"⟩]
        = LoginResult.pyAttributeError
    ∧ login "ghost" "pw1" "k" 0 [⟨1, "alice", bcryptHash "pw1"⟩]
        = LoginResult.httpError ⟨401, "Invalid credentials"⟩
    ∧ LoginResult.pyAttributeError
        ≠ LoginResult.httpError ⟨401, "Invalid credentials"⟩
    ∧ authenticate_user "alice" "wrong" "k" 0 [⟨1, "alice", bcryptHash "pw1"⟩]
        = Except.error ⟨401, "Invalid credentials"⟩
    ∧ authenticate_user "ghost" "pw1" "k" 0 [⟨1, "alice", bcryptHash "pw1"⟩]
        = Except.error ⟨401, "Invalid credentials"⟩ := by
  refine ⟨rfl, rfl, fun h => LoginResult.noConfusion h, ?_, rfl⟩
  simp [authenticate_user, bcryptVerify, bcryptHash]

/-! Claim C6. -/

/-- Claim C6 (confirmed): registering a fresh username and then
authenticating with the same credentials succeeds with a bearer token,
and resolving that token through `get_current_user` (within the token's
lifetime) returns the registered username. -/
theorem register_then_authenticate_resolves (username password key : String)
    (newId : Nat) (users : List UserRec) (T tv : Nat)
    (hfresh : ∀ u ∈ users, u.username ≠ username) (htv : tv ≤ T + oneWeek) :
    (add_user username password newId users).1 = Except.ok ⟨username⟩
    ∧ authenticate_user username password key T (add_user username password newId users).2
        = Except.ok (create_jwt_token username key T, "bearer")
    ∧ get_current_user (create_jwt_token username key T) key tv
        (add_user username password newId users).2
      = Except.ok ⟨username⟩ := by
  have hanyf : users.any (fun u => u.username == username) = false := by
    rw [List.any_eq_false]
    intro u hu
    simp only [beq_iff_eq]
    exact hfresh u hu
  have hstate : (add_user username password newId users).2
      = users ++ [⟨newId, username, bcryptHash password⟩] := by
    simp [add_user, hanyf]
  have hfind : (users ++ [(⟨newId, username, bcryptHash password⟩ : UserRec)]).find?
      (fun u => u.username == username) = some ⟨newId, username, bcryptHash password⟩ := by
    rw [List.find?_append]
    have h1 : users.find? (fun u => u.username == username) = none := by
      rw [List.find?_eq_none]
      intro u hu
      simp only [beq_iff_eq]
      exact hfresh u hu
    rw [h1, Option.none_or]
    exact List.find?_cons_of_pos _ (beq_self_eq_true username)
  refine ⟨by simp [add_user, hanyf], ?_, ?_⟩
  · rw [hstate]
    simp [authenticate_user, hfind, bcryptVerify]
  · have hnl : ¬(T + oneWeek < tv) := Nat.not_lt.mpr htv
    rw [hstate]
    simp [get_current_user, create_jwt_token, jwtEncode, jwtDecode, hnl, hfind]

/-- Claim C6, witness: alice registers, authenticates and resolves her
token ten seconds short of seven days after issuance. -/
theorem register_then_authenticate_resolves_witness :
    (add_user "alice" "pw1" 1 []).1 = Except.ok ⟨"alice"⟩
    ∧ authenticate_user "alice" "pw1" "k" 0 (add_user "alice" "pw1" 1 []).2
        = Except.ok (create_jwt_token "alice" "k" 0, "bearer")
    ∧ get_current_user (create_jwt_token "alice" "k" 0) "k" 604790
        (add_user "alice" "pw1" 1 []).2
      = Except.ok ⟨"alice"⟩ :=
  register_then_authenticate_resolves "alice" "pw1" "k" 1 [] 0 604790
    (by simp) (by decide)

/-! Claim C7. -/

/-- Claim C7 (confirmed): a token issued at `T` verifies at any time
strictly before `T` plus seven days and fails after `T` plus seven days
(`ExpiredSignatureError`, a `JWTError`, which `get_current_user`
surfaces as the 401 credentials failure); a wrong signing key or a
malformed token fails with `JWTError` at any time. -/
theorem token_week_expiry_and_signature (username key key2 raw : String) (T t : Nat) :
    (t < T + oneWeek →
      jwtDecode (create_jwt_token username key T) key t
        = Except.ok ⟨some username, T + oneWeek⟩)
    ∧ (T + oneWeek < t →
      jwtDecode (create_jwt_token username key T) key t
        = Except.error "ExpiredSignatureError")
    ∧ (key2 ≠ key →
      jwtDecode (create_jwt_token username key T) key2 t = Except.error "JWTError")
    ∧ jwtDecode (Jwt.malformed raw) key t = Except.error "JWTError"
    ∧ (T + oneWeek < t → ∀ users : List UserRec,
        get_current_user (create_jwt_token username key T) key t users
          = Except.error credentialsException) := by
  refine ⟨?_, ?_, ?_, rfl, ?_⟩
  · intro hlt
    have h1 : ¬(T + oneWeek < t) := Nat.lt_asymm hlt
    simp [jwtDecode, create_jwt_token, jwtEncode, h1]
  · intro hgt
    simp [jwtDecode, create_jwt_token, jwtEncode, hgt]
  · intro hne
    have h3 : key ≠ key2 := Ne.symm hne
    simp [jwtDecode, create_jwt_token, jwtEncode, h3]
  · intro hgt users
    have h2 : jwtDecode (create_jwt_token username key T) key t
        = Except.error "ExpiredSignatureError" := by
      simp [jwtDecode, create_jwt_token, jwtEncode, hgt]
    simp [get_current_user, h2]

/-- Claim C7, witness: a token issued at time 0 verifies at 6 days 23
hours (601200 s), is expired at 7 days 1 hour (608400 s), and fails
under the wrong key. -/
theorem token_week_expiry_and_signature_witness :
    jwtDecode (create_jwt_token "alice" "k" 0) "k" 601200
      = Except.ok ⟨some "alice", 0 + oneWeek⟩
    ∧ jwtDecode (create_jwt_token "alice" "k" 0) "k" 608400
      = Except.error "ExpiredSignatureError"
    ∧ jwtDecode (create_jwt_token "alice" "k" 0) "k2" 608400
      = Except.error "JWTError" :=
  ⟨(token_week_expiry_and_signature "alice" "k" "k2" "x" 0 601200).1 (by decide),
    (token_week_expiry_and_signature "alice" "k" "k2" "x" 0 608400).2.1 (by decide),
    (token_week_expiry_and_signature "alice" "k" "k2" "x" 0 608400).2.2.1 (by decide)⟩

/-! Claim C8. -/

/-- Claim C8 (confirmed): `add_recipe` stamps the stored `author` from
the resolved identity, so two creation requests identical except for the
payload's `author` value produce identical results, and the inserted
document carries the identity's username; a comment added by
`add_recipe_comment` likewise carries the identity's username as author
(its payload holds no author at all) — every document in the resulting
collection is either an untouched original or an original with exactly
that identity-stamped comment appended. -/
theorem creation_stamps_author_from_identity (u a b content : String)
    (p : RecipePayload) (newId rid : Nat) (cid : String) (db : List RecipeDoc) :
    add_recipe u { p with author := a } newId db
      = add_recipe u { p with author := b } newId db
    ∧ (add_recipe u p newId db).2 = db ++ [payloadToDoc newId { p with author := u }]
    ∧ (payloadToDoc newId { p with author := u }).author = u
    ∧ ∀ r2 ∈ (add_recipe_comment u content rid cid db).2,
        ∃ r1, r1 ∈ db
          ∧ (r2 = r1 ∨ r2 = { r1 with comments := r1.comments ++ [⟨cid, content, u⟩] }) := by
  refine ⟨rfl, rfl, rfl, ?_⟩
  intro r2 hr2
  have hsnd : (add_recipe_comment u content rid cid db).2
      = (updateOne (fun d : RecipeDoc => d.id == rid)
          (fun d => { d with comments := d.comments ++ [⟨cid, content, u⟩] }) db).1 := by
    simp only [add_recipe_comment]
    split <;> rfl
  rw [hsnd] at hr2
  obtain ⟨d, hd, hor⟩ := mem_updateOne _ _ db r2 hr2
  exact ⟨d, hd, hor⟩

/-- Claim C8, witness: two `add_recipe` calls as alice differing only in
the payload's claimed author coincide, and the comment bob adds to
alice's recipe is stored with author bob appended to the original. -/
theorem creation_stamps_author_from_identity_witness :
    add_recipe "alice" ⟨"Soup", "eve", ["water"], "boil", ["easy"]⟩ 5 []
      = add_recipe "alice" ⟨"Soup", "mallory", ["water"], "boil", ["easy"]⟩ 5 []
    ∧ (add_recipe "alice" ⟨"Soup", "eve", ["water"], "boil", ["easy"]⟩ 5 []).2
      = [] ++ [payloadToDoc 5 ⟨"Soup", "alice", ["water"], "boil", ["easy"]⟩]
    ∧ (payloadToDoc 5 ⟨"Soup", "alice", ["water"], "boil", ["easy"]⟩).author = "alice"
    ∧ ∃ r1, r1 ∈ [(⟨1, "Soup", "alice", ["water"], "boil", ["easy"], []⟩ : RecipeDoc)]
        ∧ ((⟨1, "Soup", "alice", ["water"], "boil", ["easy"],
              [⟨"c9", "yum", "bob"⟩]⟩ : RecipeDoc)
            = r1
          ∨ (⟨1, "Soup", "alice", ["water"], "boil", ["easy"],
              [⟨"c9", "yum", "bob"⟩]⟩ : RecipeDoc)
            = { r1 with comments := r1.comments ++ [⟨"c9", "yum", "bob"⟩] }) := by
  have h := creation_stamps_author_from_identity "bob" "eve" "mallory" "yum"
    ⟨"Soup", "eve", ["water"], "boil", ["easy"]⟩ 5 1 "c9"
    [⟨1, "Soup", "alice", ["water"], "boil", ["easy"], []⟩]
  have h' := creation_stamps_author_from_identity "alice" "eve" "mallory" "yum"
    ⟨"Soup", "eve", ["water"], "boil", ["easy"]⟩ 5 1 "c9" []
  exact ⟨h'.1, h'.2.1, h'.2.2.1,
    h.2.2.2 ⟨1, "Soup", "alice", ["water"], "boil", ["easy"], [⟨"c9", "yum", "bob"⟩]⟩
      (by decide)⟩

/-! Claim C9. -/

/-- Claim C9, counterexample: a duplicate registration is rejected with
status 400 (`Username already in use.`), not a 409-class conflict
status as claimed. -/
theorem duplicate_registration_status_is_400 :
    (add_user "alice" "pw2" 2 [⟨1, "alice", "hash1"⟩]).1
      = Except.error ⟨400, "Username already in use."⟩
    ∧ (400 : Nat) ≠ 409 := by
  exact ⟨rfl, by decide⟩

/-- Claim C9 (amended): registering an already-taken username fails with
status 400 `Username already in use.` — the `DuplicateKeyError` from the
unique index on `username`, caught and re-raised — and the users
collection is exactly what it was after the first registration: no
partial record is left. -/
theorem duplicate_registration_rejected (username p1 p2 : String) (i1 i2 : Nat)
    (users : List UserRec) (hfresh : ∀ u ∈ users, u.username ≠ username) :
    (add_user username p1 i1 users).1 = Except.ok ⟨username⟩
    ∧ add_user username p2 i2 (add_user username p1 i1 users).2
      = (Except.error ⟨400, "Username already in use."⟩,
          (add_user username p1 i1 users).2) := by
  have hanyf : users.any (fun u => u.username == username) = false := by
    rw [List.any_eq_false]
    intro u hu
    simp only [beq_iff_eq]
    exact hfresh u hu
  have hstate : (add_user username p1 i1 users).2
      = users ++ [⟨i1, username, bcryptHash p1⟩] := by
    simp [add_user, hanyf]
  have hany2 : (users ++ [(⟨i1, username, bcryptHash p1⟩ : UserRec)]).any
      (fun u => u.username == username) = true := by
    rw [List.any_eq_true]
    exact ⟨⟨i1, username, bcryptHash p1⟩, List.mem_append_right _ (List.mem_singleton.mpr rfl),
      beq_self_eq_true username⟩
  refine ⟨by simp [add_user, hanyf], ?_⟩
  rw [hstate]
  simp [add_user, hany2]

/-- Claim C9, witness: alice registers on an empty store, then a second
registration as alice fails with the 400 error and leaves the store as
the first registration made it. -/
theorem duplicate_registration_rejected_witness :
    (add_user "alice" "pw1" 1 []).1 = Except.ok ⟨"alice"⟩
    ∧ add_user "alice" "pw2" 2 (add_user "alice" "pw1" 1 []).2
      = (Except.error ⟨400, "Username already in use."⟩,
          (add_user "alice" "pw1" 1 []).2) :=
  duplicate_registration_rejected "alice" "pw1" "pw2" 1 2 [] (by simp)

/-! Claim C10. -/

/-- Claim C10 (confirmed): when no stored recipe has the requested id,
`get_all_recipe_comments` dereferences the empty cursor's `None` and
raises `AttributeError` — it neither returns a structured not-found
error (its result type has no such branch) nor an empty list. -/
theorem get_comments_crashes_on_missing_recipe (rid : Nat) (db : List RecipeDoc)
    (h : db.find? (fun d => d.id == rid) = none) :
    get_all_recipe_comments rid db = GetCommentsResult.noneTypeAttributeError
    ∧ ∀ cs, get_all_recipe_comments rid db ≠ GetCommentsResult.ok cs := by
  have hmain : get_all_recipe_comments rid db
      = GetCommentsResult.noneTypeAttributeError := by
    simp [get_all_recipe_comments, h]
  refine ⟨hmain, ?_⟩
  intro cs hcs
  rw [hmain] at hcs
  exact GetCommentsResult.noConfusion hcs

/-- Claim C10, witness: requesting the comments of recipe 2 when only
recipe 1 is stored hits the `AttributeError` path. -/
theorem get_comments_crashes_on_missing_recipe_witness :
    get_all_recipe_comments 2 [⟨1, "Soup", "alice", ["water"], "boil", ["easy"], []⟩]
      = GetCommentsResult.noneTypeAttributeError
    ∧ ∀ cs, get_all_recipe_comments 2
        [⟨1, "Soup", "alice", ["water"], "boil", ["easy"], []⟩]
      ≠ GetCommentsResult.ok cs :=
  get_comments_crashes_on_missing_recipe 2
    [⟨1, "Soup", "alice", ["water"], "boil", ["easy"], []⟩] (by decide)

end RecipeApp
